import Mathlib

/-!
# Verification of the ZetaRay render-graph core

A shallow embedding of the per-frame render-graph scheduler
(`Source/ZetaCore/Core/RenderGraph.cpp`) and of the CPU worker pool
(`Source/ZetaCore/Support/ThreadPool.cpp`), with theorems settling the
frozen claims about the natural-language specification.

Machine integers of the C++ code are embedded as `Nat`/`Int` (the code
never relies on wrap-around in the modelled regions: indices and counters
stay far below their type bounds by the `MAX_*` assertions).  Fatal
assertions are embedded as `Except`/`Option` failures.  `std::sort` is
embedded by its C++ standard contract (a permutation of the input that is
sorted with respect to the comparator); `std::sort` guarantees nothing
beyond that, in particular not stability.
-/

namespace ZetaRG

/-! ## D3D12 resource-state bits (values from d3d12.h) -/

def D3D12_RESOURCE_STATE_COMMON : Nat := 0
def D3D12_RESOURCE_STATE_VERTEX_AND_CONSTANT_BUFFER : Nat := 0x1
def D3D12_RESOURCE_STATE_INDEX_BUFFER : Nat := 0x2
def D3D12_RESOURCE_STATE_RENDER_TARGET : Nat := 0x4
def D3D12_RESOURCE_STATE_UNORDERED_ACCESS : Nat := 0x8
def D3D12_RESOURCE_STATE_DEPTH_WRITE : Nat := 0x10
def D3D12_RESOURCE_STATE_DEPTH_READ : Nat := 0x20
def D3D12_RESOURCE_STATE_NON_PIXEL_SHADER_RESOURCE : Nat := 0x40
def D3D12_RESOURCE_STATE_PIXEL_SHADER_RESOURCE : Nat := 0x80
def D3D12_RESOURCE_STATE_COPY_DEST : Nat := 0x400
def D3D12_RESOURCE_STATE_COPY_SOURCE : Nat := 0x800
def D3D12_RESOURCE_STATE_RAYTRACING_ACCELERATION_STRUCTURE : Nat := 0x400000
def D3D12_RESOURCE_STATE_PRESENT : Nat := 0

/-- Modelled from the spec (the `Constants` header is not under `src/`):
"The read-state mask unions shader-resource, index, vertex-constant, and
copy-source". -/
def READ_STATES : Nat :=
  D3D12_RESOURCE_STATE_VERTEX_AND_CONSTANT_BUFFER |||
  D3D12_RESOURCE_STATE_INDEX_BUFFER |||
  D3D12_RESOURCE_STATE_NON_PIXEL_SHADER_RESOURCE |||
  D3D12_RESOURCE_STATE_PIXEL_SHADER_RESOURCE |||
  D3D12_RESOURCE_STATE_COPY_SOURCE

/-- Modelled from the spec (the `Constants` header is not under `src/`):
"the write-state mask unions render-target, unordered-access, depth-write,
and copy-destination". -/
def WRITE_STATES : Nat :=
  D3D12_RESOURCE_STATE_RENDER_TARGET |||
  D3D12_RESOURCE_STATE_UNORDERED_ACCESS |||
  D3D12_RESOURCE_STATE_DEPTH_WRITE |||
  D3D12_RESOURCE_STATE_COPY_DEST

/-- Modelled from the spec (the `Constants` header is not under `src/`):
"The illegal-on-compute mask unions render-target, depth-read, depth-write,
and pixel-shader-resource". -/
def INVALID_COMPUTE_STATES : Nat :=
  D3D12_RESOURCE_STATE_RENDER_TARGET |||
  D3D12_RESOURCE_STATE_DEPTH_READ |||
  D3D12_RESOURCE_STATE_DEPTH_WRITE |||
  D3D12_RESOURCE_STATE_PIXEL_SHADER_RESOURCE

/-- Modelled from the spec (`DUMMY_RES` enum is in a header outside `src/`):
"Values below a small reserved range denote dummy resources". -/
def DUMMY_RES_COUNT : Nat := 2

/-- Modelled from the spec (constant is in a header outside `src/`). -/
def MAX_NUM_RESOURCES : Nat := 64

/-- Modelled from the spec (constant is in a header outside `src/`):
"at most MAX_PRODUCERS producers per resource per frame". -/
def MAX_NUM_PRODUCERS : Nat := 8

/-! ## Worker pool (`ThreadPool.cpp`)

Tasks carry a callback (opaque here), a priority, a signal handle and an
adjacency list of signal handles.  We embed the observable actions of
executing one task — the inbound-dependency wait, the callback invocation
and the outbound signalling — as an event trace. -/

inductive TASK_PRIORITY where
  | NORMAL
  | BACKGROUND
deriving Repr, DecidableEq

structure Task where
  Priority : TASK_PRIORITY
  SignalHandle : Int
  Adjacencies : List Int
deriving Repr, DecidableEq

inductive PoolEvent where
  /-- `App::WaitForAdjacentHeadNodes(taskHandle)` -/
  | waitInbound (signalHandle : Int)
  /-- `task.DoTask()` -/
  | run
  /-- `App::SignalAdjacentTailNodes(adjacencies)` -/
  | signalOutbound (adjacencies : List Int)
deriving Repr, DecidableEq

/-- Executing one dequeued task inside `ThreadPool::PumpUntilEmpty`
(ThreadPool.cpp:147-163): the wait is unconditional, the outbound
signalling is guarded only by the adjacency list being non-empty. -/
def pumpExecuteTask (t : Task) : List PoolEvent :=
  [PoolEvent.waitInbound t.SignalHandle] ++
  [PoolEvent.run] ++
  (if t.Adjacencies.length > 0 then [PoolEvent.signalOutbound t.Adjacencies] else [])

/-- Executing one dequeued task inside `ThreadPool::WorkerThread`
(ThreadPool.cpp:205-224): the wait and the outbound signalling are both
skipped for `TASK_PRIORITY::BACKGROUND`. -/
def workerExecuteTask (t : Task) : List PoolEvent :=
  (if t.Priority ≠ TASK_PRIORITY.BACKGROUND
   then [PoolEvent.waitInbound t.SignalHandle] else []) ++
  [PoolEvent.run] ++
  (if t.Priority ≠ TASK_PRIORITY.BACKGROUND ∧ t.Adjacencies.length > 0
   then [PoolEvent.signalOutbound t.Adjacencies] else [])

/-- The counters and queue of the pool that `PumpUntilEmpty`/`TryFlush`
read and write: `m_numTasksInQueue` is the queue itself here,
`m_numTasksFinished` and `m_numTasksToFinishTarget` are the two counters. -/
structure PoolState where
  queue : List Task
  finished : Nat
  target : Nat
deriving Repr, DecidableEq

/-- `ThreadPool::PumpUntilEmpty` (ThreadPool.cpp:136-166): dequeue and
execute on the calling thread until the queue count reaches zero; each
executed task increments `m_numTasksFinished`. -/
def pumpGo (queue : List Task) (finished target : Nat) : PoolState × List PoolEvent :=
  match queue with
  | [] => (⟨[], finished, target⟩, [])
  | t :: rest =>
      let (s', evs) := pumpGo rest (finished + 1) target
      (s', pumpExecuteTask t ++ evs)

def pumpUntilEmpty (s : PoolState) : PoolState × List PoolEvent :=
  pumpGo s.queue s.finished s.target

/-- `ThreadPool::TryFlush` (ThreadPool.cpp:168-184): compare the two
counters; on equality reset both and return true; otherwise pump the queue
until empty and return false. -/
def tryFlush (s : PoolState) : Bool × PoolState × List PoolEvent :=
  let success := s.finished == s.target
  if !success then
    let (s', evs) := pumpUntilEmpty s
    (false, s', evs)
  else
    (true, { s with finished := 0, target := 0 }, [])

/-! ## Render-graph data model (`RenderGraph.cpp` / `RenderGraph.h`)

Node handles and table indices are embedded as `Nat`; the sentinel value
`-1` of the C++ code (`INVALID_NODE_HANDLE`, "no GPU dependency", "not
merged") is kept by using `Int` for the fields that carry it.  The native
`ID3D12Resource*` pointer is opaque: `Option Nat` (with `none` for null). -/

inductive RENDER_NODE_TYPE where
  | RENDER
  | ASYNC_COMPUTE
deriving Repr, DecidableEq, Inhabited

/-- A declared dependency: (resource path id, expected state mask). -/
structure Dependency where
  ResID : Nat
  ExpectedState : Nat
deriving Repr, DecidableEq, Inhabited

/-- A transition barrier (resource, state before, state after). -/
structure TransitionBarrier where
  Res : Option Nat
  StateBefore : Nat
  StateAfter : Nat
deriving Repr, DecidableEq, Inhabited

/-- Per-pass record.  Modelled from the spec for the fields whose header
is not under `src/`: `GpuDepSourceIdx` and `AggNodeIdx` reset to `-1`
("absent"), numeric fields and `OutputMask` reset to zero. -/
structure RenderNode where
  /-- The source calls this field `Type`, a reserved word in Lean. -/
  NodeType : RENDER_NODE_TYPE := RENDER_NODE_TYPE.RENDER
  ForceSeparateCmdList : Bool := false
  Inputs : List Dependency := []
  Outputs : List Dependency := []
  Indegree : Int := 0
  NodeBatchIdx : Nat := 0
  OutputMask : Nat := 0
  Barriers : List TransitionBarrier := []
  HasUnsupportedBarrier : Bool := false
  GpuDepSourceIdx : Int := -1
  AggNodeIdx : Int := -1
deriving Repr, DecidableEq, Inhabited

/-- Per-resource record; `Producers` holds unsorted render-node handles in
`CurrProdIdx` order (the list length is the atomic counter). -/
structure ResourceMetadata where
  ID : Nat
  Res : Option Nat
  State : Nat
  IsWindowSizeDependent : Bool
  Producers : List Nat
deriving Repr, DecidableEq, Inhabited

/-- The per-graph state touched by the declaration phase.  `frameResources`
models the meaningful prefix `[0, m_lastResIdx)` of the fixed-capacity
array (so `m_lastResIdx` is the list length). -/
structure GraphState where
  frameResources : List ResourceMetadata
  prevFramesNumResources : Nat
  renderNodes : List RenderNode
  inBeginEndBlock : Bool
  inPreRegister : Bool
deriving Repr, DecidableEq, Inhabited

/-- `ResourceMetadata::Reset(path, res, initState, isWindowSizeDependent)`.
Modelled from the spec (the header is not under `src/`): resets the entry
with the new handle, initial state and window-size flag, clearing the
producer list. -/
def resetMeta (path : Nat) (res : Option Nat) (initState : Nat)
    (isWindowSizeDependent : Bool) : ResourceMetadata :=
  { ID := path, Res := res, State := initState,
    IsWindowSizeDependent := isWindowSizeDependent, Producers := [] }

/-- Modelled from the spec (`Util::BinarySearch` lives outside `src/`):
binary search over the sorted table restricted to the inclusive index
range `[beg, e]`, returning the index holding `key`.  Embedded as the
first index in range whose id matches, which on a sorted duplicate-free
range is the unique such index. -/
def binSearchRange (resources : List ResourceMetadata) (key : Nat)
    (beg e : Int) : Option Nat :=
  (List.range resources.length).find? fun i =>
    beg ≤ (i : Int) && (i : Int) ≤ e &&
      ((resources.get? i).map ResourceMetadata.ID == some key)

/-- `RenderGraph::FindFrameResource` (RenderGraph.cpp:229-238): an `end`
argument equal to `beg` returns "not found" immediately (the `end - beg
== 0` guard); an `end` of `-1` is replaced by `m_lastResIdx - 1`. -/
def findFrameResource (resources : List ResourceMetadata) (key : Nat)
    (beg e : Int) : Option Nat :=
  if e - beg == 0 then none
  else
    let e2 := if e == -1 then (resources.length : Int) - 1 else e
    binSearchRange resources key beg e2

/-- `RenderGraph::RegisterResource` (RenderGraph.cpp:252-275). -/
def registerResource (s : GraphState) (res : Option Nat) (path : Nat)
    (initState : Nat) (isWindowSizeDependent : Bool) :
    Except String GraphState :=
  if ¬(s.inBeginEndBlock ∧ s.inPreRegister) then .error "Invalid call." else
  if res.isSome ∧ ¬(path > DUMMY_RES_COUNT) then
    .error "resource path ID can't take special value" else
  match findFrameResource s.frameResources path 0
      ((s.prevFramesNumResources : Int) - 1) with
  | some prevPos =>
      if (s.frameResources.getD prevPos default).Res ≠ res then
        let fr := s.frameResources.set prevPos
          (resetMeta path res initState isWindowSizeDependent)
        .ok { s with frameResources := fr }
      else
        .ok s
  | none =>
      if s.frameResources.length ≥ MAX_NUM_RESOURCES then
        .error "Number of resources exceeded MAX_NUM_RESOURCES"
      else
        .ok { s with frameResources := s.frameResources ++
                [resetMeta path res initState isWindowSizeDependent] }

def hasAdjacentDupIDs : List ResourceMetadata → Bool
  | a :: b :: rest => a.ID == b.ID || hasAdjacentDupIDs (b :: rest)
  | _ => false

/-- `RenderGraph::MoveToPostRegister` (RenderGraph.cpp:277-304): sort the
resource table by id (the `std::sort` is embedded as a deterministic
comparison sort; on the duplicate-free tables the code expects, every
conforming sort agrees), then fail on adjacent duplicate ids (the
debug-build assertion). -/
def moveToPostRegister (s : GraphState) : Except String GraphState :=
  if ¬(s.inBeginEndBlock ∧ s.inPreRegister) then .error "Invalid call." else
  let sortedRes := s.frameResources.insertionSort (fun a b => a.ID ≤ b.ID)
  if hasAdjacentDupIDs sortedRes then .error "Duplicate entries"
  else .ok { s with frameResources := sortedRes, inPreRegister := false }

/-- `RenderGraph::AddInput` (RenderGraph.cpp:306-316): phase, handle and
read-state assertions, then append the dependency; the resource existence
check is deferred ("Defer checking for invalid states until later on"). -/
def addInput (s : GraphState) (h : Nat) (pathID : Nat)
    (expectedState : Nat) : Except String GraphState :=
  if ¬(s.inBeginEndBlock ∧ ¬s.inPreRegister) then .error "Invalid call." else
  if h ≥ s.renderNodes.length then .error "Invalid handle" else
  if expectedState &&& READ_STATES == 0 then .error "Invalid read state." else
  let node := s.renderNodes.getD h default
  let nodes' := s.renderNodes.set h
    { node with Inputs := node.Inputs ++ [⟨pathID, expectedState⟩] }
  .ok { s with renderNodes := nodes' }

/-- `RenderGraph::AddOutput` (RenderGraph.cpp:318-342): phase, handle,
write-state and compute-queue-legality assertions, append the output,
then look the resource up — a missing resource id is a fatal assertion
(`Assert(idx != size_t(-1), ...)`) raised before the producer-list entry
is written; otherwise the node handle is appended to the resource's
producer list (bounded by `MAX_NUM_PRODUCERS`). -/
def addOutput (s : GraphState) (h : Nat) (pathID : Nat)
    (expectedState : Nat) : Except String GraphState :=
  if ¬(s.inBeginEndBlock ∧ ¬s.inPreRegister) then .error "Invalid call." else
  if h ≥ s.renderNodes.length then .error "Invalid handle" else
  if expectedState &&& WRITE_STATES == 0 then .error "Invalid write state." else
  let node := s.renderNodes.getD h default
  if node.NodeType = RENDER_NODE_TYPE.ASYNC_COMPUTE ∧
      expectedState &&& INVALID_COMPUTE_STATES ≠ 0 then
    .error "state transition is not supported on an async-compute command list"
  else
    let nodes' := s.renderNodes.set h
      { node with Outputs := node.Outputs ++ [⟨pathID, expectedState⟩] }
    match findFrameResource s.frameResources pathID 0 (-1) with
    | none => .error "Invalid resource path"
    | some idx =>
        let r := s.frameResources.getD idx default
        if r.Producers.length ≥ MAX_NUM_PRODUCERS then
          .error "Number of producers for each resource can't exceed MAX_NUM_PRODUCERS"
        else
          let fr := s.frameResources.set idx
            { r with Producers := r.Producers ++ [h] }
          .ok { s with renderNodes := nodes', frameResources := fr }

/-! ## Small-node merging (`RenderGraph::MergeSmallNodes`)

Only the fields that `MergeSmallNodes` reads and writes are modelled;
`NumDlgs` is the size of the aggregate's callback list `Dlgs`. -/

structure AggregateNode where
  IsAsyncCompute : Bool := false
  ForceSeparate : Bool := false
  NumDlgs : Nat := 1
  MergeStart : Bool := false
  MergeEnd : Bool := false
  MergedCmdListIdx : Int := -1
deriving Repr, DecidableEq, Inhabited

/-- The loop of `RenderGraph::MergeSmallNodes` (RenderGraph.cpp:899-957).
`done` is the reversed processed prefix, so `m_aggregateNodes[nodeIdx-1]`
(and, for the trailing block, `m_aggregateNodes.back()`) is its head;
`currOffsetIsNone` stands for `currOffset == -1`. -/
def mergeGo (currOffsetIsNone : Bool) (cmdListIdx : Nat) (currCount : Nat)
    (done : List AggregateNode) :
    List AggregateNode → List AggregateNode × Nat
  | [] =>
      if currCount ≠ 0 then
        match done with
        | [] => (done.reverse, cmdListIdx)
        | prev :: ds =>
            if currCount == 1 then
              let prev' := { prev with MergeStart := false, MergedCmdListIdx := prev.MergedCmdListIdx - 1 }
              ((prev' :: ds).reverse, cmdListIdx)
            else
              (({ prev with MergeEnd := true } :: ds).reverse, cmdListIdx + 1)
      else (done.reverse, cmdListIdx)
  | node :: rest =>
      if !node.IsAsyncCompute && !node.ForceSeparate && node.NumDlgs == 1 then
        let node' := { node with MergeStart := currOffsetIsNone, MergedCmdListIdx := (cmdListIdx : Int) }
        mergeGo false cmdListIdx (currCount + 1) (node' :: done) rest
      else
        if currCount ≠ 0 then
          match done with
          | [] => mergeGo true cmdListIdx 0 (node :: done) rest
          | prev :: ds =>
              if currCount == 1 then
                let prev' := { prev with MergeStart := false, MergedCmdListIdx := prev.MergedCmdListIdx - 1 }
                mergeGo true cmdListIdx 0 (node :: prev' :: ds) rest
              else
                mergeGo true (cmdListIdx + 1) 0 (node :: { prev with MergeEnd := true } :: ds) rest
        else
          mergeGo true cmdListIdx 0 (node :: done) rest

/-- `RenderGraph::MergeSmallNodes`: returns the rewritten aggregate list
and the final `cmdListIdx` (the size of the shared command-list pool). -/
def mergeSmallNodes (aggs : List AggregateNode) : List AggregateNode × Nat :=
  mergeGo true 0 0 [] aggs

/-- Modelled from the spec (constant is in a header outside `src/`). -/
def MAX_NUM_RENDER_PASSES : Nat := 32

/-- `RenderGraph::RegisterRenderPass` (RenderGraph.cpp:240-250): allocate
the next node slot and reset it with the given type and force-separate
flag; returns the (unsorted) handle. -/
def registerRenderPass (s : GraphState) (t : RENDER_NODE_TYPE)
    (forceSeparateCmdList : Bool) : Except String (GraphState × Nat) :=
  if ¬(s.inBeginEndBlock ∧ s.inPreRegister) then .error "Invalid call." else
  if s.renderNodes.length ≥ MAX_NUM_RENDER_PASSES then
    .error "Number of render passes exceeded MAX_NUM_RENDER_PASSES"
  else
    let node : RenderNode := { NodeType := t, ForceSeparateCmdList := forceSeparateCmdList }
    .ok ({ s with renderNodes := s.renderNodes ++ [node] }, s.renderNodes.length)

/-! ## Edge construction and in-degrees (`RenderGraph::Build`,
RenderGraph.cpp:344-411) -/

/-- What the per-node loop of `Build` accumulates: the node's in-degree,
its output mask, and the adjacency edges (producer, consumer) it pushes
into `adjacentTailNodes`. -/
structure EdgeAcc where
  Indegree : Int
  OutputMask : Nat
  Edges : List (Nat × Nat)
deriving Repr, DecidableEq, Inhabited

/-- `for i < numOutputs: if Outputs[i].ResID == input.ResID {OutputMask |=
1 << i; break}` (RenderGraph.cpp:398-405): the bit of the first output
naming the resource, or no bit when none does. -/
def selfOutputBit (outputs : List Dependency) (resID : Nat) : Nat :=
  match outputs.findIdx? (fun o => o.ResID == resID) with
  | some i => 1 <<< i
  | none => 0

/-- The producer loop of `Build` (RenderGraph.cpp:380-409): a producer
equal to the current node decrements the in-degree and sets the ping-pong
output bit; any other producer contributes one adjacency edge. -/
def processProducers (currNode : Nat) (selfBit : Nat) (producers : List Nat)
    (acc : EdgeAcc) : EdgeAcc :=
  producers.foldl
    (fun a p =>
      if p == currNode then
        { a with Indegree := a.Indegree - 1, OutputMask := a.OutputMask ||| selfBit }
      else
        { a with Edges := a.Edges ++ [(p, currNode)] })
    acc

/-- One input of the `Build` edge loop: resolve the resource (a missing id
is the fatal `Assert(idx != size_t(-1))`), correct the in-degree for its
producer count (`k == 0` decrements, else adds `k - 1`), then walk the
producers. -/
def processInputStep (resources : List ResourceMetadata) (currNode : Nat)
    (outputs : List Dependency) (acc : EdgeAcc) (input : Dependency) :
    Option EdgeAcc :=
  match findFrameResource resources input.ResID 0 (-1) with
  | none => none
  | some idx =>
      let producers := (resources.getD idx default).Producers
      let acc1 :=
        if producers.length == 0 then { acc with Indegree := acc.Indegree - 1 }
        else { acc with Indegree := acc.Indegree + (producers.length : Int) - 1 }
      some (processProducers currNode (selfOutputBit outputs input.ResID) producers acc1)

/-- The whole edge/in-degree computation of `Build` for one node `N`:
the in-degree starts at the number of inputs (RenderGraph.cpp:352-353)
and every input is then processed in order. -/
def processInputsForNode (resources : List ResourceMetadata) (currNode : Nat)
    (node : RenderNode) : Option EdgeAcc :=
  node.Inputs.foldlM (processInputStep resources currNode node.Outputs)
    { Indegree := (node.Inputs.length : Int), OutputMask := node.OutputMask, Edges := [] }

/-- The `Build` edge loop over all nodes (`currNode` is the unsorted
handle): writes each node's computed in-degree and output mask and
concatenates the pushed adjacency edges in push order. -/
def buildEdgesGo (resources : List ResourceMetadata) :
    Nat → List RenderNode → Option (List RenderNode × List (Nat × Nat))
  | _, [] => some ([], [])
  | i, node :: rest => do
      let acc ← processInputsForNode resources i node
      let (rest', edges') ← buildEdgesGo resources (i + 1) rest
      some ({ node with Indegree := acc.Indegree, OutputMask := acc.OutputMask } :: rest',
            acc.Edges ++ edges')

/-- `adjacentTailNodes[p]`: the consumers pushed for producer `p`, in push
order. -/
def adjOf (edges : List (Nat × Nat)) (p : Nat) : List Nat :=
  (edges.filter (fun e => e.1 == p)).map Prod.snd

/-! ## Topological sort, batch indices, reorder (`RenderGraph::Sort`,
RenderGraph.cpp:561-642) -/

/-- `for adjacent in adjacentTailNodes[current]: if (--Indegree == 0) push`
(RenderGraph.cpp:588-592): decrement each neighbour in order, collecting
those whose in-degree reaches exactly zero. -/
def relaxAll (d : List Int) : List Nat → List Int × List Nat
  | [] => (d, [])
  | m :: ms =>
      let newVal := d.getD m 0 - 1
      let d' := d.set m newVal
      let (d2, rest) := relaxAll d' ms
      if newVal == 0 then (d2, m :: rest) else (d2, rest)

/-- The topological-sort loop of `Sort` (RenderGraph.cpp:583-593): the
loop body runs exactly `numNodes` times (the fuel); reading past the end
of the filled prefix is the fatal `Assert(sorted[currNode].IsValid())`,
i.e. the graph is not a DAG. -/
def kahnGo (adj : Nat → List Nat) :
    Nat → List Nat → Nat → List Int → Option (List Nat)
  | 0, sorted, _, _ => some sorted
  | fuel + 1, sorted, pos, indeg =>
      match sorted.get? pos with
      | none => none
      | some v =>
          let (indeg2, pushed) := relaxAll indeg (adj v)
          kahnGo adj fuel (sorted ++ pushed) (pos + 1) indeg2

/-- `RenderGraph::Sort` up to the batch re-sort: seed the frontier with
the zero-in-degree nodes (`Assert(currIdx > 0)` — empty frontier is
fatal), run the loop, and require the final count to equal the node count
(`Assert(numNodes == currIdx, "Graph is not a DAG")`). -/
def kahnSort (adj : Nat → List Nat) (n : Nat) (indeg : List Int) :
    Option (List Nat) :=
  let frontier := (List.range n).filter (fun v => indeg.getD v 0 == 0)
  if frontier.isEmpty then none
  else
    (kahnGo adj n frontier 0 indeg).bind
      (fun s => if s.length == n then some s else none)

/-- The longest-path pass of `Sort` (RenderGraph.cpp:598-608): walk the
topological order; each edge raises the head's batch index to at least
the tail's plus one.  `batches` is indexed by unsorted handle. -/
def computeBatches (adj : Nat → List Nat) (sortedHandles : List Nat)
    (batches : List Nat) : List Nat :=
  sortedHandles.foldl
    (fun b v =>
      (adj v).foldl (fun b2 m => b2.set m (max (b2.getD v 0 + 1) (b2.getD m 0))) b)
    batches

/-- The contract of `std::sort` (RenderGraph.cpp:610-614), which is all
the C++ standard guarantees for it: the output is a permutation of the
input that is sorted for the comparator `lhs.NodeBatchIdx <
rhs.NodeBatchIdx` — equivalently, pairwise non-decreasing in the batch
key.  `std::sort` does not guarantee stability. -/
def IsSortResult (key : Nat → Nat) (input output : List Nat) : Prop :=
  output.Perm input ∧ output.Pairwise (fun a b => key a ≤ key b)

instance (key : Nat → Nat) (input output : List Nat) :
    Decidable (IsSortResult key input output) := by
  unfold IsSortResult
  infer_instance

/-- Write the computed batch indices (indexed by unsorted handle) into
the node records. -/
def applyBatches (nodes : List RenderNode) (batches : List Nat) : List RenderNode :=
  nodes.mapIdx (fun i nd => { nd with NodeBatchIdx := batches.getD i 0 })

/-- `m_mapping[sorted[i]] = i` (RenderGraph.cpp:625-626): the sorted
position of an unsorted handle. -/
def mappingOf (sorted : List Nat) (h : Nat) : Nat :=
  sorted.indexOf h

/-- The shuffle of `m_renderNodes` into sorted order
(RenderGraph.cpp:629-635). -/
def shuffleNodes (nodes : List RenderNode) (sorted : List Nat) : List RenderNode :=
  sorted.map (fun h => nodes.getD h default)

/-! ## Barrier insertion (`RenderGraph::InsertResourceBarriers`,
RenderGraph.cpp:644-792) -/

def setResourceState (resources : List ResourceMetadata) (idx : Nat)
    (st : Nat) : List ResourceMetadata :=
  resources.set idx { resources.getD idx default with State := st }

/-- One input of the barrier loop (RenderGraph.cpp:685-747): dummy ids
are skipped entirely (`continue`, so their producers contribute no
cross-queue sync either); otherwise, when the current state misses the
expected state, a transition barrier is pushed, the unsupported-barrier
flag is updated for async-compute nodes, and the resource state becomes
the expected state; finally all producers on the opposite queue raise `L`
(`largestProducerSortedHandle`), the maximum sorted index — case (a). -/
def barrierInputStep (nodesAll : List RenderNode) (mapping : Nat → Nat)
    (isAsync : Bool)
    (acc : List ResourceMetadata × List TransitionBarrier × Bool × Int)
    (input : Dependency) :
    Option (List ResourceMetadata × List TransitionBarrier × Bool × Int) :=
  if input.ResID < DUMMY_RES_COUNT then some acc
  else
    let (resources, barriers, hasUnsup, l) := acc
    match findFrameResource resources input.ResID 0 (-1) with
    | none => none
    | some idx =>
        let r := resources.getD idx default
        let (resources', barriers', hasUnsup') :=
          if r.State &&& input.ExpectedState == 0 then
            (setResourceState resources idx input.ExpectedState,
             barriers ++ [⟨r.Res, r.State, input.ExpectedState⟩],
             hasUnsup || (isAsync && r.State &&& INVALID_COMPUTE_STATES != 0))
          else (resources, barriers, hasUnsup)
        let l' := r.Producers.foldl
          (fun lcur p =>
            let sh := mapping p
            let prodIsAsync :=
              (nodesAll.getD sh default).NodeType == RENDER_NODE_TYPE.ASYNC_COMPUTE
            if isAsync != prodIsAsync then max lcur (sh : Int) else lcur)
          l
        some (resources', barriers', hasUnsup', l')

/-- One output of the barrier loop (RenderGraph.cpp:759-784): dummy ids
are skipped (and do not advance the mask counter `i`); a non-dummy output
whose mask bit is clear and whose current state misses the expected state
pushes a barrier (with the unsupported-barrier check); the resource state
is then set to the expected state. -/
def barrierOutputStep (isAsync : Bool) (mask : Nat)
    (acc : List ResourceMetadata × List TransitionBarrier × Bool × Nat)
    (output : Dependency) :
    Option (List ResourceMetadata × List TransitionBarrier × Bool × Nat) :=
  if output.ResID < DUMMY_RES_COUNT then some acc
  else
    let (resources, barriers, hasUnsup, i) := acc
    let skipBarrier := (1 <<< i) &&& mask != 0
    match findFrameResource resources output.ResID 0 (-1) with
    | none => none
    | some idx =>
        let r := resources.getD idx default
        let (barriers', hasUnsup') :=
          if !skipBarrier && r.State &&& output.ExpectedState == 0 then
            (barriers ++ [⟨r.Res, r.State, output.ExpectedState⟩],
             hasUnsup || (isAsync && r.State &&& INVALID_COMPUTE_STATES != 0))
          else (barriers, hasUnsup)
        some (setResourceState resources idx output.ExpectedState, barriers', hasUnsup', i + 1)

/-- The running state of `InsertResourceBarriers`: the resource table, the
node table in sorted (execution) order, and the two per-queue
`last_synced` cursors — both initialised to `0` by the code
(RenderGraph.cpp:651-652). -/
structure BarrierCtx where
  resources : List ResourceMetadata
  nodes : List RenderNode
  lastDirQueueHandle : Int
  lastComputeQueueHandle : Int
deriving Repr, DecidableEq, Inhabited

/-- The body of the barrier loop for the node at sorted position `pos`:
inputs, then the case-(b) cursor test (`L != -1 &&
*getLastSyncedIdx(node.Type) < L` sets `GpuDepSourceIdx` and advances the
cursor, RenderGraph.cpp:750-754), then outputs. -/
def processNodeBarriers (mapping : Nat → Nat) (ctx : BarrierCtx) (pos : Nat) :
    Option BarrierCtx := do
  let node := ctx.nodes.getD pos default
  let isAsync := node.NodeType == RENDER_NODE_TYPE.ASYNC_COMPUTE
  let (res1, bar1, hu1, l) ← node.Inputs.foldlM
    (barrierInputStep ctx.nodes mapping isAsync)
    (ctx.resources, node.Barriers, node.HasUnsupportedBarrier, (-1 : Int))
  let cursor := if isAsync then ctx.lastDirQueueHandle else ctx.lastComputeQueueHandle
  let fire := l ≠ -1 ∧ cursor < l
  let gpuDep := if fire then l else node.GpuDepSourceIdx
  let lastDir' := if isAsync ∧ fire then l else ctx.lastDirQueueHandle
  let lastCompute' := if ¬isAsync ∧ fire then l else ctx.lastComputeQueueHandle
  let (res2, bar2, hu2, _) ← node.Outputs.foldlM
    (barrierOutputStep isAsync node.OutputMask) (res1, bar1, hu1, 0)
  let node' := { node with Barriers := bar2, HasUnsupportedBarrier := hu2, GpuDepSourceIdx := gpuDep }
  some (BarrierCtx.mk res2 (ctx.nodes.set pos node') lastDir' lastCompute')

/-- `RenderGraph::InsertResourceBarriers`: iterate the nodes in execution
order, then force the backbuffer resource (when present in the table) to
the PRESENT state (RenderGraph.cpp:787-791). -/
def insertResourceBarriers (resources : List ResourceMetadata)
    (nodes : List RenderNode) (mapping : Nat → Nat) (backbufferID : Nat) :
    Option (List ResourceMetadata × List RenderNode) := do
  let ctx ← (List.range nodes.length).foldlM (processNodeBarriers mapping)
    (BarrierCtx.mk resources nodes 0 0)
  let resourcesFinal :=
    match findFrameResource ctx.resources backbufferID 0 (-1) with
    | some idx => setResourceState ctx.resources idx D3D12_RESOURCE_STATE_PRESENT
    | none => ctx.resources
  some (resourcesFinal, ctx.nodes)

/-! ## The build pipeline up to and after the batch re-sort -/

/-- `RenderGraph::Build` through `Sort`'s Kahn pass and batch assignment:
edge construction, topological sort, longest-path batch indices.  Returns
the nodes (with in-degrees, masks and batch indices filled in, still in
registration order), the adjacency edges, and the topological order of
unsorted handles. -/
def buildSortPhase (s : GraphState) :
    Option (List RenderNode × List (Nat × Nat) × List Nat) := do
  let n := s.renderNodes.length
  if n == 0 then none
  else
    let (nodes1, edges) ← buildEdgesGo s.frameResources 0 s.renderNodes
    let adj := adjOf edges
    let indeg := nodes1.map RenderNode.Indegree
    let kout ← kahnSort adj n indeg
    let batches := computeBatches adj kout (List.replicate n 0)
    some (applyBatches nodes1 batches, edges, kout)

/-- The rest of `Build` for barrier insertion, given a batch-sorted order
`sorted` (any `std::sort` outcome): build the mapping, shuffle the node
table, and insert barriers. -/
def postSortPhase (resources : List ResourceMetadata) (nodes : List RenderNode)
    (sorted : List Nat) (backbufferID : Nat) :
    Option (List ResourceMetadata × List RenderNode) :=
  insertResourceBarriers resources (shuffleNodes nodes sorted)
    (mappingOf sorted) backbufferID

end ZetaRG

namespace ZetaRG

/-- C4 counterexample: `std::sort` is not a stable sort, and its contract
(`IsSortResult`, all RenderGraph.cpp:610-614 requires) admits outcomes
that reverse equal-batch nodes.  For the topologically sorted array
`[0, 1]` whose two nodes share batch index 3, the output `[1, 0]` is a
conforming `std::sort` result, yet node 0 precedes node 1 in the
topological order and follows it afterwards — refuting the claim that
the relative order of every equal-batch pair is preserved. -/
theorem batch_resort_stability_counterexample :
    IsSortResult (fun h => [3, 3].getD h 0) [0, 1] [1, 0] ∧
    [3, 3].getD 0 0 = [3, 3].getD 1 0 ∧
    [0, 1].indexOf 0 < [0, 1].indexOf 1 ∧
    ¬([1, 0].indexOf 0 < [1, 0].indexOf 1) := by
  refine ⟨⟨by decide, by decide⟩, by decide, by decide, by decide⟩

/-- C4 (amended): the second sort of the topologically sorted array only
guarantees the `std::sort` contract — every outcome is a permutation of
the array ordered by non-decreasing batch index (so nodes of strictly
smaller batch index always precede nodes of larger batch index), and the
stable reorder (equal-batch nodes kept in topological order) is one
conforming outcome — but stability itself is not guaranteed. -/
theorem batch_resort_contract_amended (key : Nat → Nat) (input : List Nat) :
    IsSortResult key input (input.insertionSort (fun a b => key a ≤ key b)) ∧
    (∀ output, IsSortResult key input output →
      ∀ i j, i < j → j < output.length →
        key (output.getD i 0) ≤ key (output.getD j 0)) := by
  constructor
  · haveI : IsTotal Nat (fun a b => key a ≤ key b) :=
      ⟨fun a b => le_total (key a) (key b)⟩
    haveI : IsTrans Nat (fun a b => key a ≤ key b) :=
      ⟨fun _ _ _ h1 h2 => le_trans h1 h2⟩
    exact ⟨List.perm_insertionSort _ input, List.sorted_insertionSort _ input⟩
  · rintro output ⟨-, hpair⟩ i j hij hj
    have hi : i < output.length := lt_trans hij hj
    rw [List.getD_eq_getElem output 0 hi, List.getD_eq_getElem output 0 hj]
    exact List.pairwise_iff_getElem.mp hpair i j hi hj hij

theorem batch_resort_contract_amended_witness :
    IsSortResult (fun h => [3, 3].getD h 0) [0, 1]
      ([0, 1].insertionSort (fun a b => [3, 3].getD a 0 ≤ [3, 3].getD b 0)) ∧
    (([3, 3] : List Nat).getD ([1, 0].getD 0 0) 0 ≤
      [3, 3].getD ([1, 0].getD 1 0) 0) := by
  have h := batch_resort_contract_amended (fun h => [3, 3].getD h 0) [0, 1]
  exact ⟨h.1, h.2 [1, 0] ⟨by decide, by decide⟩ 0 1 (by decide) (by decide)⟩

/-! ### Claim C6: edge construction and in-degrees -/

/-- The producer list of the resource an input names (empty when the
lookup fails, which the code treats as fatal). -/
def producersOf (resources : List ResourceMetadata) (resID : Nat) : List Nat :=
  match findFrameResource resources resID 0 (-1) with
  | some idx => (resources.getD idx default).Producers
  | none => []

/-- The claim's per-input in-degree contribution for node `currNode`: `-1`
when the resource has no producers, `k - 1` when it has `k > 0`, and an
extra `-1` for every producer equal to the node itself. -/
def inputDelta (resources : List ResourceMetadata) (currNode : Nat)
    (I : Dependency) : Int :=
  let k := (producersOf resources I.ResID).length
  (if k = 0 then -1 else (k : Int) - 1) -
    ((producersOf resources I.ResID).count currNode : Int)

/-- The claim's output mask: starting from `mask0`, each input one of
whose producers is the node itself contributes the bit of the (first)
output naming that resource. -/
def specMask (resources : List ResourceMetadata) (currNode : Nat)
    (outputs : List Dependency) (mask0 : Nat) (inputs : List Dependency) : Nat :=
  inputs.foldl
    (fun m I =>
      if currNode ∈ producersOf resources I.ResID then
        m ||| selfOutputBit outputs I.ResID
      else m)
    mask0

/-- The claim's adjacency edges: one edge `producer → currNode` for every
producer of every input that is distinct from the node itself. -/
def specEdges (resources : List ResourceMetadata) (currNode : Nat)
    (inputs : List Dependency) : List (Nat × Nat) :=
  inputs.flatMap
    (fun I => ((producersOf resources I.ResID).filter (fun p => p ≠ currNode)).map
      (fun p => (p, currNode)))

theorem processProducers_spec (currNode : Nat) (selfBit : Nat)
    (producers : List Nat) (acc : EdgeAcc) :
    processProducers currNode selfBit producers acc =
      ⟨acc.Indegree - (producers.count currNode : Int),
       acc.OutputMask ||| (if currNode ∈ producers then selfBit else 0),
       acc.Edges ++ (producers.filter (fun p => p ≠ currNode)).map
         (fun p => (p, currNode))⟩ := by
  induction producers generalizing acc with
  | nil =>
      cases acc with
      | mk d m e => simp [processProducers]
  | cons p ps ih =>
      cases acc with
      | mk d m e =>
        by_cases hp : p = currNode
        · subst hp
          have h := ih ⟨d - 1, m ||| selfBit, e⟩
          simp only [processProducers, List.foldl_cons, beq_self_eq_true,
            if_true] at h ⊢
          rw [h]
          have hcount : (p :: ps).count p = ps.count p + 1 :=
            List.count_cons_self p ps
          have hfil : (p :: ps).filter (fun q => q ≠ p) =
              ps.filter (fun q => q ≠ p) := by
            simp [List.filter_cons]
          simp only [EdgeAcc.mk.injEq, hfil, List.mem_cons, true_or,
            if_true, hcount, Nat.cast_add, Nat.cast_one]
          refine ⟨by omega, ?_, by trivial⟩
          by_cases hmem : p ∈ ps
          · rw [if_pos hmem, Nat.or_assoc, Nat.or_self]
          · rw [if_neg hmem, Nat.or_zero]
        · have h := ih ⟨d, m, e ++ [(p, currNode)]⟩
          have hbeq : (p == currNode) = false := by
            simp [hp]
          simp only [processProducers, List.foldl_cons, hbeq,
            Bool.false_eq_true, if_false] at h ⊢
          rw [h]
          have hnp : currNode ≠ p := fun hx => hp hx.symm
          have hcount : (p :: ps).count currNode = ps.count currNode :=
            List.count_cons_of_ne hnp ps
          have hmem : (currNode ∈ p :: ps) = (currNode ∈ ps) := by
            simp [List.mem_cons, hnp]
          have hfil : (p :: ps).filter (fun q => q ≠ currNode) =
              p :: ps.filter (fun q => q ≠ currNode) := by
            simp [List.filter_cons, hp]
          simp only [EdgeAcc.mk.injEq, hcount, hmem, hfil, List.map_cons]
          refine ⟨by trivial, by trivial, by simp [List.append_assoc]⟩

/-- C6: the `Build` edge loop for a node computes exactly what the claim
states: the in-degree is the number of inputs, plus `k - 1` for each
input with `k > 0` producers, minus one for each input with no
producers, minus one per self-producer; the output mask gains the bit of
the (first) output naming each self-produced input resource; and the
adjacency edges are exactly one `producer → N` edge per non-self
producer, in traversal order. -/
theorem build_edge_construction (resources : List ResourceMetadata)
    (currNode : Nat) (node : RenderNode)
    (hfound : ∀ I ∈ node.Inputs,
      (findFrameResource resources I.ResID 0 (-1)).isSome) :
    processInputsForNode resources currNode node =
      some ⟨(node.Inputs.length : Int) +
              (node.Inputs.map (inputDelta resources currNode)).sum,
            specMask resources currNode node.Outputs node.OutputMask node.Inputs,
            specEdges resources currNode node.Inputs⟩ := by
  unfold processInputsForNode
  generalize hacc : (⟨(node.Inputs.length : Int), node.OutputMask, []⟩ : EdgeAcc) = acc
  have hgen : ∀ (inputs : List Dependency) (acc : EdgeAcc),
      (∀ I ∈ inputs, (findFrameResource resources I.ResID 0 (-1)).isSome) →
      inputs.foldlM (processInputStep resources currNode node.Outputs) acc =
        some ⟨acc.Indegree + (inputs.map (inputDelta resources currNode)).sum,
              specMask resources currNode node.Outputs acc.OutputMask inputs,
              acc.Edges ++ specEdges resources currNode inputs⟩ := by
    intro inputs
    induction inputs with
    | nil => intro acc _; simp [specMask, specEdges]
    | cons I rest ih =>
        intro acc hf
        have hI := hf I (by simp)
        obtain ⟨idx, hidx⟩ := Option.isSome_iff_exists.mp hI
        have hrest : ∀ J ∈ rest, (findFrameResource resources J.ResID 0 (-1)).isSome :=
          fun J hJ => hf J (by simp [hJ])
        have hprod : producersOf resources I.ResID =
            (resources.getD idx default).Producers := by
          simp [producersOf, hidx]
        simp only [List.foldlM_cons, processInputStep, hidx]
        rw [processProducers_spec]
        simp only [Option.bind_eq_bind, Option.some_bind]
        rw [ih _ hrest]
        refine congrArg some ?_
        rw [← hprod]
        simp only [List.map_cons, List.sum_cons, specMask, List.foldl_cons,
          specEdges, List.flatMap_cons, inputDelta, EdgeAcc.mk.injEq]
        refine ⟨?_, ?_, ?_⟩
        · rw [apply_ite EdgeAcc.Indegree]
          by_cases hz : (producersOf resources I.ResID).length = 0
          · rw [if_pos (by simpa using hz), if_pos hz]
            dsimp only
            omega
          · rw [if_neg (by simpa using hz), if_neg hz]
            dsimp only
            omega
        · rw [apply_ite EdgeAcc.OutputMask, ite_self]
          by_cases hmem : currNode ∈ producersOf resources I.ResID
          · rw [if_pos hmem, if_pos hmem]
          · rw [if_neg hmem, if_neg hmem, Nat.or_zero]
        · rw [apply_ite EdgeAcc.Edges, ite_self]
          simp [List.append_assoc]
  rw [hgen node.Inputs acc hfound]
  subst hacc
  rfl

theorem build_edge_construction_witness :
    processInputsForNode
        [⟨10, some 1, 0, false, [0, 0, 2]⟩, ⟨11, some 2, 0, false, []⟩] 0
        { Inputs := [⟨10, 64⟩, ⟨11, 64⟩], Outputs := [⟨10, 8⟩] } =
      some ⟨(1 : Int), 1, [(2, 0)]⟩ := by
  have h := build_edge_construction
    [⟨10, some 1, 0, false, [0, 0, 2]⟩, ⟨11, some 2, 0, false, []⟩] 0
    { Inputs := [⟨10, 64⟩, ⟨11, 64⟩], Outputs := [⟨10, 8⟩] }
    (by decide)
  rw [h]
  rfl

/-! ### Claim C8: `mapping` is a permutation of `[0, node_count)` -/

theorem getD_set_self (d : List Int) (m : Nat) (x : Int) (h : m < d.length) :
    (d.set m x).getD m 0 = x := by
  simp [List.getD, List.getElem?_set_self', h]

theorem getD_set_ne (d : List Int) (m v : Nat) (x : Int) (h : v ≠ m) :
    (d.set m x).getD v 0 = d.getD v 0 := by
  simp [List.getD, List.getElem?_set_ne (fun hx => h hx.symm)]

theorem relaxAll_cons (d : List Int) (m : Nat) (ms : List Nat) :
    relaxAll d (m :: ms) =
      (if d.getD m 0 - 1 == 0
       then ((relaxAll (d.set m (d.getD m 0 - 1)) ms).1,
             m :: (relaxAll (d.set m (d.getD m 0 - 1)) ms).2)
       else relaxAll (d.set m (d.getD m 0 - 1)) ms) := by
  simp only [relaxAll]

/-- The decrement loop preserves the length, never increases an entry,
and collects a duplicate-free set of nodes whose entry was positive
before the loop, is non-positive after it, and which lie inside the
table. -/
theorem relaxAll_spec (ms : List Nat) (d : List Int) :
    (relaxAll d ms).1.length = d.length ∧
    (∀ v, (relaxAll d ms).1.getD v 0 ≤ d.getD v 0) ∧
    (relaxAll d ms).2.Nodup ∧
    (∀ v ∈ (relaxAll d ms).2,
      1 ≤ d.getD v 0 ∧ (relaxAll d ms).1.getD v 0 ≤ 0 ∧ v < d.length) := by
  induction ms generalizing d with
  | nil => simp [relaxAll]
  | cons m ms ih =>
      rw [relaxAll_cons]
      set d' := d.set m (d.getD m 0 - 1) with hd'
      have hlen' : d'.length = d.length := List.length_set d m _
      have hmono : ∀ v, d'.getD v 0 ≤ d.getD v 0 := by
        intro v
        by_cases hv : v = m
        · subst hv
          by_cases hin : v < d.length
          · rw [hd', getD_set_self d v _ hin]; omega
          · rw [hd', List.set_eq_of_length_le (by omega)]
        · rw [hd', getD_set_ne d m v _ hv]
      obtain ⟨ihlen, ihmono, ihnd, ihmem⟩ := ih d'
      by_cases hz : d.getD m 0 - 1 = 0
      · have hm1 : d.getD m 0 = 1 := by omega
        have hmlt : m < d.length := by
          by_contra hge
          have : d.getD m 0 = 0 := by
            simp [List.getD, List.getElem?_eq_none (by omega : d.length ≤ m)]
          omega
        have hdm' : d'.getD m 0 = 0 := by
          rw [hd', getD_set_self d m _ hmlt]; omega
        have hbeq : (d.getD m 0 - 1 == 0) = true := by simpa using hz
        rw [if_pos hbeq]
        refine ⟨by rw [ihlen, hlen'], ?_, ?_, ?_⟩
        · intro v; exact le_trans (ihmono v) (hmono v)
        · refine List.Nodup.cons ?_ ihnd
          intro hmem
          have := (ihmem m hmem).1
          omega
        · intro v hv
          rcases List.mem_cons.mp hv with rfl | hv
          · exact ⟨by omega, le_trans (ihmono v) (le_of_eq hdm'), hmlt⟩
          · obtain ⟨h1, h2, h3⟩ := ihmem v hv
            have hvm : v ≠ m := by
              intro hvm; subst hvm; rw [hdm'] at h1; omega
            rw [hd', getD_set_ne d m v _ hvm] at h1
            exact ⟨h1, h2, by rw [← hlen']; exact h3⟩
      · have hbeq : (d.getD m 0 - 1 == 0) = false := by simpa using hz
        have hnot : ¬((d.getD m 0 - 1 == 0) = true) := by rw [hbeq]; simp
        rw [if_neg hnot]
        refine ⟨by rw [ihlen, hlen'], ?_, ihnd, ?_⟩
        · intro v; exact le_trans (ihmono v) (hmono v)
        · intro v hv
          obtain ⟨h1, h2, h3⟩ := ihmem v hv
          refine ⟨?_, h2, by rw [← hlen']; exact h3⟩
          by_cases hvm : v = m
          · subst hvm
            by_cases hin : v < d.length
            · rw [hd', getD_set_self d v _ hin] at h1; omega
            · rw [hd', List.set_eq_of_length_le (by omega)] at h1; exact h1
          · rw [hd', getD_set_ne d m v _ hvm] at h1; exact h1

theorem kahnGo_succ_none (adj : Nat → List Nat) (fuel : Nat)
    (sorted : List Nat) (pos : Nat) (indeg : List Int)
    (hget : sorted.get? pos = none) :
    kahnGo adj (fuel + 1) sorted pos indeg = none := by
  rw [kahnGo, hget]

theorem kahnGo_succ_some (adj : Nat → List Nat) (fuel : Nat)
    (sorted : List Nat) (pos : Nat) (indeg : List Int) (v : Nat)
    (hget : sorted.get? pos = some v) :
    kahnGo adj (fuel + 1) sorted pos indeg =
      kahnGo adj fuel (sorted ++ (relaxAll indeg (adj v)).2) (pos + 1)
        (relaxAll indeg (adj v)).1 := by
  rw [kahnGo, hget]

/-- The topological-sort loop keeps the accumulated order duplicate-free
and within the node table: a node enters `sorted` only when its in-degree
crosses zero, which a monotonically decreasing counter does at most
once. -/
theorem kahnGo_spec (adj : Nat → List Nat) :
    ∀ (fuel : Nat) (sorted : List Nat) (pos : Nat) (indeg : List Int)
      (out : List Nat),
      kahnGo adj fuel sorted pos indeg = some out →
      sorted.Nodup →
      (∀ v ∈ sorted, indeg.getD v 0 ≤ 0) →
      (∀ v ∈ sorted, v < indeg.length) →
      out.Nodup ∧ (∀ v ∈ out, v < indeg.length) := by
  intro fuel
  induction fuel with
  | zero =>
      intro sorted pos indeg out h hnd hle hlt
      simp only [kahnGo, Option.some.injEq] at h
      subst h
      exact ⟨hnd, hlt⟩
  | succ fuel ih =>
      intro sorted pos indeg out h hnd hle hlt
      cases hget : sorted.get? pos with
      | none =>
          rw [kahnGo_succ_none adj fuel sorted pos indeg hget] at h
          exact absurd h (by simp)
      | some v =>
          rw [kahnGo_succ_some adj fuel sorted pos indeg v hget] at h
          rcases hr : relaxAll indeg (adj v) with ⟨indeg2, pushed⟩
          rw [hr] at h
          obtain ⟨slen, smono, snd, smem⟩ := relaxAll_spec (adj v) indeg
          rw [hr] at slen smono snd smem
          simp only at slen smono snd smem
          have hdisj : sorted.Disjoint pushed := by
            intro x hx1 hx2
            have := hle x hx1
            have := (smem x hx2).1
            omega
          have hres := ih (sorted ++ pushed) (pos + 1) indeg2 out h
            (hnd.append snd hdisj)
            (by
              intro x hx
              rcases List.mem_append.mp hx with hx | hx
              · exact le_trans (smono x) (hle x hx)
              · exact (smem x hx).2.1)
            (by
              intro x hx
              rw [slen]
              rcases List.mem_append.mp hx with hx | hx
              · exact hlt x hx
              · exact (smem x hx).2.2)
          rw [slen] at hres
          exact hres

/-- The Kahn phase of `Sort`, when it succeeds, yields a duplicate-free
list of all `n` node handles. -/
theorem kahnSort_spec (adj : Nat → List Nat) (n : Nat) (indeg : List Int)
    (s : List Nat) (hlen : indeg.length = n)
    (h : kahnSort adj n indeg = some s) :
    s.Nodup ∧ s.length = n ∧ ∀ v, v ∈ s ↔ v < n := by
  simp only [kahnSort] at h
  set frontier := (List.range n).filter (fun v => indeg.getD v 0 == 0) with hf
  by_cases hemp : frontier.isEmpty
  · rw [if_pos hemp] at h; exact absurd h (by simp)
  · rw [if_neg hemp] at h
    cases hgo : kahnGo adj n frontier 0 indeg with
    | none => rw [hgo] at h; exact absurd h (by simp)
    | some s0 =>
        rw [hgo, Option.some_bind] at h
        by_cases hslen : s0.length = n
        · rw [if_pos (by simpa using hslen)] at h
          have hs : s0 = s := by simpa using h
          subst hs
          have hfr1 : frontier.Nodup := (List.nodup_range n).filter _
          have hfr2 : ∀ v ∈ frontier, indeg.getD v 0 ≤ 0 := by
            intro v hv
            have h0 : indeg.getD v 0 = 0 := by
              have := (List.mem_filter.mp hv).2
              exact beq_iff_eq.mp this
            exact le_of_eq h0
          have hfr3 : ∀ v ∈ frontier, v < indeg.length := by
            intro v hv
            have := (List.mem_filter.mp hv).1
            rw [hlen]
            exact List.mem_range.mp this
          obtain ⟨hnd, hmem⟩ := kahnGo_spec adj n frontier 0 indeg s0 hgo
            hfr1 hfr2 hfr3
          refine ⟨hnd, hslen, ?_⟩
          have hsub : s0.toFinset ⊆ Finset.range n := by
            intro x hx
            rw [Finset.mem_range]
            rw [← hlen]
            exact hmem x (List.mem_toFinset.mp hx)
          have hcard : (Finset.range n).card ≤ s0.toFinset.card := by
            rw [Finset.card_range, List.toFinset_card_of_nodup hnd, hslen]
          have heq : s0.toFinset = Finset.range n :=
            Finset.eq_of_subset_of_card_le hsub hcard
          intro v
          constructor
          · intro hv
            rw [← hlen]
            exact hmem v hv
          · intro hv
            rw [← List.mem_toFinset, heq, Finset.mem_range]
            exact hv
        · rw [if_neg (by simpa using hslen)] at h
          exact absurd h (by simp)

/-- C8: after the topological sort (when the `numNodes == currIdx` DAG
assertion passes) and any conforming batch re-sort, the function
`original_handle ↦ mapping[original_handle]` is a bijection on
`[0, n)`: it maps into `[0, n)`, is injective there, and every sorted
position is hit. -/
theorem mapping_is_bijection (adj : Nat → List Nat) (n : Nat)
    (indeg : List Int) (kout : List Nat) (key : Nat → Nat) (output : List Nat)
    (hlen : indeg.length = n)
    (hk : kahnSort adj n indeg = some kout)
    (hsort : IsSortResult key kout output) :
    (∀ h, h < n → mappingOf output h < n) ∧
    (∀ h1 h2, h1 < n → h2 < n →
      mappingOf output h1 = mappingOf output h2 → h1 = h2) ∧
    (∀ i, i < n → ∃ h, h < n ∧ mappingOf output h = i) := by
  obtain ⟨knd, klen, kmem⟩ := kahnSort_spec adj n indeg kout hlen hk
  obtain ⟨hperm, -⟩ := hsort
  have ond : output.Nodup := hperm.nodup_iff.mpr knd
  have olen : output.length = n := hperm.length_eq.trans klen
  have omem : ∀ v, v ∈ output ↔ v < n := fun v => (hperm.mem_iff).trans (kmem v)
  refine ⟨?_, ?_, ?_⟩
  · intro h hh
    have : h ∈ output := (omem h).mpr hh
    have := List.indexOf_lt_length.mpr this
    rw [olen] at this
    simpa [mappingOf] using this
  · intro h1 h2 hh1 hh2 heq
    have m1 : h1 ∈ output := (omem h1).mpr hh1
    have m2 : h2 ∈ output := (omem h2).mpr hh2
    exact (List.indexOf_inj m1 m2).mp (by simpa [mappingOf] using heq)
  · intro i hi
    have hi' : i < output.length := by rw [olen]; exact hi
    refine ⟨output[i], (omem _).mp (List.getElem_mem hi'), ?_⟩
    have hmem : output[i] ∈ output := List.getElem_mem hi'
    have hlt : output.indexOf output[i] < output.length :=
      List.indexOf_lt_length.mpr hmem
    have hget : output[output.indexOf output[i]] = output[i] :=
      List.getElem_indexOf hlt
    have := ond.getElem_inj_iff.mp hget
    simpa [mappingOf] using this

theorem mapping_is_bijection_witness :
    mappingOf [0, 1] 1 < 2 ∧ mappingOf [0, 1] 1 = 1 := by
  have h := mapping_is_bijection (adjOf [(0, 1)]) 2 [0, 1] [0, 1] id [0, 1]
    rfl (by rfl) ⟨by decide, by decide⟩
  exact ⟨h.1 1 (by decide), by decide⟩

theorem pumpGo_spec (queue : List Task) (finished target : Nat) :
    (pumpGo queue finished target).1 = ⟨[], finished + queue.length, target⟩ ∧
    (pumpGo queue finished target).2 = queue.flatMap pumpExecuteTask := by
  induction queue generalizing finished with
  | nil => simp [pumpGo]
  | cons t rest ih =>
      have h := ih (finished + 1)
      simp [pumpGo, h.1, h.2]
      omega

theorem pumpUntilEmpty_spec (s : PoolState) :
    (pumpUntilEmpty s).1 = ⟨[], s.finished + s.queue.length, s.target⟩ ∧
    (pumpUntilEmpty s).2 = s.queue.flatMap pumpExecuteTask :=
  pumpGo_spec s.queue s.finished s.target

/-- C7: `TryFlush` returns true exactly when the finished-task counter
equals the outstanding-target counter at the time of the call; on true it
resets both counters to zero (leaving the queue untouched); on false it
first pumps the queue until empty and returns false without resetting
either counter (the target is unchanged, and the finished counter is only
incremented, once per task executed by the pump). -/
theorem tryFlush_contract (s : PoolState) :
    ((tryFlush s).1 = true ↔ s.finished = s.target) ∧
    ((tryFlush s).1 = true → (tryFlush s).2.1 = ⟨s.queue, 0, 0⟩) ∧
    ((tryFlush s).1 = false →
      (tryFlush s).2.1 = (pumpUntilEmpty s).1 ∧
      (tryFlush s).2.1.queue = [] ∧
      (tryFlush s).2.1.finished = s.finished + s.queue.length ∧
      (tryFlush s).2.1.target = s.target) := by
  have hp := pumpUntilEmpty_spec s
  by_cases h : s.finished = s.target
  · simp [tryFlush, h]
  · refine ⟨by simp [tryFlush, h], by simp [tryFlush, h], fun _ => ?_⟩
    refine ⟨by simp [tryFlush, pumpUntilEmpty, h], ?_, ?_, ?_⟩ <;>
      simp [tryFlush, h, pumpUntilEmpty, (pumpGo_spec s.queue s.finished s.target).1]

theorem tryFlush_contract_witness :
    ((tryFlush ⟨[⟨TASK_PRIORITY.NORMAL, 0, []⟩], 1, 2⟩).1 = false ∧
      (tryFlush ⟨[⟨TASK_PRIORITY.NORMAL, 0, []⟩], 1, 2⟩).2.1.finished = 2 ∧
      (tryFlush ⟨[⟨TASK_PRIORITY.NORMAL, 0, []⟩], 1, 2⟩).2.1.target = 2) ∧
    (tryFlush ⟨[], 3, 3⟩).1 = true ∧
    (tryFlush ⟨[], 3, 3⟩).2.1 = ⟨[], 0, 0⟩ := by
  have h1 := tryFlush_contract ⟨[⟨TASK_PRIORITY.NORMAL, 0, []⟩], 1, 2⟩
  have h2 := tryFlush_contract ⟨[], 3, 3⟩
  have hfalse : (tryFlush ⟨[⟨TASK_PRIORITY.NORMAL, 0, []⟩], 1, 2⟩).1 = false := by decide
  have htrue : (tryFlush ⟨([] : List Task), 3, 3⟩).1 = true := h2.1.mpr rfl
  refine ⟨⟨hfalse, ?_, ?_⟩, htrue, h2.2.1 htrue⟩
  · exact ((h1.2.2 hfalse).2.2.1)
  · exact ((h1.2.2 hfalse).2.2.2)

/-- C5 counterexample: a task with background priority and a non-empty
adjacency list, executed through `PumpUntilEmpty`, does wait on inbound
dependency signals and does signal its outbound dependents — refuting the
claim that background tasks never do either on every execution path. -/
theorem background_task_pump_waits_and_signals_counterexample :
    (Task.mk TASK_PRIORITY.BACKGROUND 3 [7]).Priority = TASK_PRIORITY.BACKGROUND ∧
    (pumpUntilEmpty ⟨[⟨TASK_PRIORITY.BACKGROUND, 3, [7]⟩], 0, 0⟩).2 =
      [PoolEvent.waitInbound 3, PoolEvent.run, PoolEvent.signalOutbound [7]] := by
  constructor
  · rfl
  · rfl

/-- C5 (amended): a background task executed by a worker thread's loop
neither waits on inbound dependency signals nor signals outbound
dependents (its trace is exactly the callback invocation), while a task
executed through `PumpUntilEmpty` always waits on inbound signals and
signals its outbound dependents whenever its adjacency list is non-empty,
regardless of priority. -/
theorem background_task_dependency_protocol_amended (t : Task) (s : PoolState)
    (hbg : t.Priority = TASK_PRIORITY.BACKGROUND) (hmem : t ∈ s.queue) :
    workerExecuteTask t = [PoolEvent.run] ∧
    PoolEvent.waitInbound t.SignalHandle ∈ (pumpUntilEmpty s).2 ∧
    (t.Adjacencies.length > 0 →
      PoolEvent.signalOutbound t.Adjacencies ∈ (pumpUntilEmpty s).2) := by
  have hev := (pumpUntilEmpty_spec s).2
  refine ⟨by simp [workerExecuteTask, hbg], ?_, fun hadj => ?_⟩
  · rw [hev]
    exact List.mem_flatMap.mpr ⟨t, hmem, by simp [pumpExecuteTask]⟩
  · rw [hev]
    exact List.mem_flatMap.mpr ⟨t, hmem, by simp [pumpExecuteTask, hadj]⟩

theorem background_task_dependency_protocol_amended_witness :
    workerExecuteTask ⟨TASK_PRIORITY.BACKGROUND, 3, [7]⟩ = [PoolEvent.run] ∧
    PoolEvent.waitInbound 3 ∈
      (pumpUntilEmpty ⟨[⟨TASK_PRIORITY.BACKGROUND, 3, [7]⟩], 0, 0⟩).2 := by
  have h := background_task_dependency_protocol_amended
    ⟨TASK_PRIORITY.BACKGROUND, 3, [7]⟩ ⟨[⟨TASK_PRIORITY.BACKGROUND, 3, [7]⟩], 0, 0⟩
    rfl (by simp)
  exact ⟨h.1, h.2.1⟩

/-- A mergeable aggregate in the sense of `MergeSmallNodes`: graphics
queue, not force-separate, exactly one recorded callback. -/
def mergeableAgg : AggregateNode :=
  { IsAsyncCompute := false, ForceSeparate := false, NumDlgs := 1 }

/-- A non-mergeable graphics aggregate (two callbacks). -/
def twoDlgAgg : AggregateNode := { mergeableAgg with NumDlgs := 2 }

/-- C3: on the aggregate sequence [mergeable, mergeable, non-mergeable,
mergeable] the first two aggregates are merged into chain 0, but the
trailing run of exactly one mergeable aggregate — processed after one
merge chain has completed — is left with `MergedCmdListIdx = 0`, not the
"not merged" value `-1`: the singleton un-merge executes
`prev.MergedCmdListIdx--` (RenderGraph.cpp:927,950) instead of storing
`-1`, so the reset only works while `cmdListIdx` is still zero.  The node
therefore aliases merge chain 0 (`BuildTaskGraph` treats any index ≠ -1
as membership of a merge chain: RenderGraph.cpp:457,516) even though its
`MergeStart`/`MergeEnd` flags are cleared. -/
theorem mergeSmallNodes_singleton_after_chain_not_reset :
    (mergeSmallNodes [mergeableAgg, mergeableAgg, twoDlgAgg, mergeableAgg]).1.map
        (fun a => (a.MergeStart, a.MergeEnd, a.MergedCmdListIdx)) =
      [(true, false, 0), (false, true, 0), (false, false, -1), (false, false, 0)] ∧
    (mergeSmallNodes [mergeableAgg, mergeableAgg, twoDlgAgg, mergeableAgg]).2 = 1 ∧
    (mergeSmallNodes [mergeableAgg]).1.map
        (fun a => (a.MergeStart, a.MergeEnd, a.MergedCmdListIdx)) =
      [(false, false, -1)] := by
  refine ⟨?_, ?_, ?_⟩ <;> rfl

/-- The pre-register table with exactly one resource surviving from the
previous frame (id 7, native handle 1). -/
def singlePrevResourceState : GraphState :=
  { frameResources := [⟨7, some 1, D3D12_RESOURCE_STATE_RENDER_TARGET, false, []⟩],
    prevFramesNumResources := 1,
    renderNodes := [],
    inBeginEndBlock := true,
    inPreRegister := true }

/-- C9: `RegisterResource` on a table holding exactly one previous-frame
resource never finds it — `FindFrameResource(path, 0,
m_prevFramesNumResources - 1)` returns `-1` whenever `end - beg == 0`
(RenderGraph.cpp:231-232), i.e. whenever `m_prevFramesNumResources == 1` —
so re-registering the same id (here with a changed native handle, which
the claim says must overwrite the entry in place) instead appends a second
entry with the same id, and the following `MoveToPostRegister` trips the
code's own duplicate-id assertion (RenderGraph.cpp:289-301). -/
theorem registerResource_single_prev_resource_duplicates :
    (registerResource singlePrevResourceState (some 2) 7
        D3D12_RESOURCE_STATE_COMMON false).map
      (fun s => s.frameResources.map ResourceMetadata.ID) = .ok [7, 7] ∧
    ((registerResource singlePrevResourceState (some 2) 7
        D3D12_RESOURCE_STATE_COMMON false).bind moveToPostRegister).isOk = false := by
  exact ⟨rfl, rfl⟩

/-- The state `AddInput` produces on success: the dependency appended to
node `h`, everything else untouched. -/
def withInputAppended (s : GraphState) (h : Nat) (pathID : Nat)
    (expectedState : Nat) : GraphState :=
  let node := s.renderNodes.getD h default
  let nodes' := s.renderNodes.set h
    { node with Inputs := node.Inputs ++ [⟨pathID, expectedState⟩] }
  { s with renderNodes := nodes' }

/-- C10: with a valid post-register state, a valid handle, and legal
read/write state masks, `AddOutput` on a resource id absent from the
resource table is a fatal assertion at declaration time (the producer
list write that follows the lookup is never reached), while `AddInput` on
the same unknown id succeeds and merely appends the dependency to the
node (the existence check is deferred to build time). -/
theorem addOutput_checks_resource_addInput_defers (s : GraphState) (h : Nat)
    (pathID : Nat) (eIn eOut : Nat)
    (hphase : s.inBeginEndBlock ∧ ¬s.inPreRegister)
    (hh : h < s.renderNodes.length)
    (hread : eIn &&& READ_STATES ≠ 0)
    (hwrite : eOut &&& WRITE_STATES ≠ 0)
    (hcompute : ¬((s.renderNodes.getD h default).NodeType = RENDER_NODE_TYPE.ASYNC_COMPUTE ∧
        eOut &&& INVALID_COMPUTE_STATES ≠ 0))
    (hmissing : findFrameResource s.frameResources pathID 0 (-1) = none) :
    addOutput s h pathID eOut = .error "Invalid resource path" ∧
    addInput s h pathID eIn = .ok (withInputAppended s h pathID eIn) := by
  constructor
  · simp only [addOutput]
    rw [if_neg (by simp [hphase.1, hphase.2]), if_neg (by omega),
      if_neg (by simpa using hwrite), if_neg hcompute, hmissing]
  · simp only [addInput, withInputAppended]
    rw [if_neg (by simp [hphase.1, hphase.2]), if_neg (by omega),
      if_neg (by simpa using hread)]

/-! ### Scenario S2 (cross-queue transitive sync), claim C1

Registration order: `A = 0`, `B = 1`, `C = 2` on the graphics queue,
`X = 3`, `Y = 4`, `Z = 5` on the async-compute queue.  Resources (all
registered with initial state COMMON): `10` written by A and read by B
and X, `11` written by B and read by C and Y, `12` written by C and read
by Z, `13` written by X and read by Y, `14` written by Y and read by Z.
This yields the in-queue orders A→B→C and X→Y→Z plus the cross edges
A→X, B→Y, C→Z of scenario S2. -/
def s2Script : Except String GraphState := do
  let s : GraphState := ⟨[], 0, [], true, true⟩
  let s ← registerResource s (some 1) 10 D3D12_RESOURCE_STATE_COMMON false
  let s ← registerResource s (some 2) 11 D3D12_RESOURCE_STATE_COMMON false
  let s ← registerResource s (some 3) 12 D3D12_RESOURCE_STATE_COMMON false
  let s ← registerResource s (some 4) 13 D3D12_RESOURCE_STATE_COMMON false
  let s ← registerResource s (some 5) 14 D3D12_RESOURCE_STATE_COMMON false
  let (s, _) ← registerRenderPass s RENDER_NODE_TYPE.RENDER false
  let (s, _) ← registerRenderPass s RENDER_NODE_TYPE.RENDER false
  let (s, _) ← registerRenderPass s RENDER_NODE_TYPE.RENDER false
  let (s, _) ← registerRenderPass s RENDER_NODE_TYPE.ASYNC_COMPUTE false
  let (s, _) ← registerRenderPass s RENDER_NODE_TYPE.ASYNC_COMPUTE false
  let (s, _) ← registerRenderPass s RENDER_NODE_TYPE.ASYNC_COMPUTE false
  let s ← moveToPostRegister s
  let s ← addOutput s 0 10 D3D12_RESOURCE_STATE_UNORDERED_ACCESS
  let s ← addInput s 1 10 D3D12_RESOURCE_STATE_NON_PIXEL_SHADER_RESOURCE
  let s ← addOutput s 1 11 D3D12_RESOURCE_STATE_UNORDERED_ACCESS
  let s ← addInput s 2 11 D3D12_RESOURCE_STATE_NON_PIXEL_SHADER_RESOURCE
  let s ← addOutput s 2 12 D3D12_RESOURCE_STATE_UNORDERED_ACCESS
  let s ← addInput s 3 10 D3D12_RESOURCE_STATE_NON_PIXEL_SHADER_RESOURCE
  let s ← addOutput s 3 13 D3D12_RESOURCE_STATE_UNORDERED_ACCESS
  let s ← addInput s 4 11 D3D12_RESOURCE_STATE_NON_PIXEL_SHADER_RESOURCE
  let s ← addInput s 4 13 D3D12_RESOURCE_STATE_NON_PIXEL_SHADER_RESOURCE
  let s ← addOutput s 4 14 D3D12_RESOURCE_STATE_UNORDERED_ACCESS
  let s ← addInput s 5 12 D3D12_RESOURCE_STATE_NON_PIXEL_SHADER_RESOURCE
  let s ← addInput s 5 14 D3D12_RESOURCE_STATE_NON_PIXEL_SHADER_RESOURCE
  pure s

def s2SortPhase : Option (List RenderNode × List (Nat × Nat) × List Nat) :=
  match s2Script with
  | .ok s => buildSortPhase s
  | .error _ => none

/-- The execution order for S2: Kahn produces [A, B, X, C, Y, Z] (unsorted
handles [0, 1, 3, 2, 4, 5], batches 0, 1, 1, 2, 2, 3), which is already
non-decreasing in batch index, so it is itself a conforming `std::sort`
outcome (and the one every stable reorder produces). -/
def s2Sorted : List Nat := [0, 1, 3, 2, 4, 5]

def s2Final : Option (List ResourceMetadata × List RenderNode) :=
  match s2Script, s2SortPhase with
  | .ok s, some r => postSortPhase s.frameResources r.1 s2Sorted 0
  | _, _ => none

/-- C1: evaluating the build pipeline on scenario S2.  In execution order
[A, B, X, C, Y, Z], node X (sorted position 2) consumes A's output and A
is the only opposite-queue producer, at sorted index 0 — so by the claim
X must get `gpu_dep_source_idx = 0` (X waits on A).  The code instead
leaves X's `GpuDepSourceIdx` at `-1` (no fence): `lastDirQueueHandle`
starts at `0` (RenderGraph.cpp:651) and the case-(b) test `0 < 0` fails
for a producer at sorted index 0.  Y and Z behave as the claim says
(Y waits on B at index 1 and not on A; Z waits on C at index 3 and not on
A or B), confirming that only the index-0 producer is missed. -/
theorem s2_crossqueue_fence_missing_for_first_producer :
    (s2SortPhase.map (fun r => r.2.2)) = some s2Sorted ∧
    (s2SortPhase.map (fun r => r.1.map RenderNode.NodeBatchIdx)) =
      some [0, 1, 2, 1, 2, 3] ∧
    IsSortResult (fun h => [0, 1, 2, 1, 2, 3].getD h 0) s2Sorted s2Sorted ∧
    (s2Final.map (fun q => q.2.map RenderNode.GpuDepSourceIdx)) =
      some [-1, -1, -1, -1, 1, 3] := by
  refine ⟨by rfl, by rfl, by decide, by rfl⟩

/-! ### Scenario S4 (ping-pong), claim C2 -/

/-- A single graphics pass reading resource 10 (initial state COMMON) as
NON_PIXEL_SHADER_RESOURCE and writing the same resource as
UNORDERED_ACCESS — the ping-pong case that sets output-mask bit 0. -/
def pingPongScript : Except String GraphState := do
  let s : GraphState := ⟨[], 0, [], true, true⟩
  let s ← registerResource s (some 1) 10 D3D12_RESOURCE_STATE_COMMON false
  let (s, _) ← registerRenderPass s RENDER_NODE_TYPE.RENDER false
  let s ← moveToPostRegister s
  let s ← addInput s 0 10 D3D12_RESOURCE_STATE_NON_PIXEL_SHADER_RESOURCE
  let s ← addOutput s 0 10 D3D12_RESOURCE_STATE_UNORDERED_ACCESS
  pure s

def pingPongFinal : Option (List ResourceMetadata × List RenderNode) :=
  match pingPongScript with
  | .ok s =>
      match buildSortPhase s with
      | some r => postSortPhase s.frameResources r.1 [0] 0
      | none => none
  | .error _ => none

/-- C2 counterexample: in the ping-pong scenario the node's output-mask
bit 0 is set and the masked output indeed contributes no barrier (the
node's barrier list holds exactly the input transition COMMON →
NON_PIXEL_SHADER_RESOURCE), but — contrary to the claim that a masked
output "does not update the resource's recorded current state" — the
resource's recorded state after the node is the output's expected state
UNORDERED_ACCESS (8), not the input state NON_PIXEL_SHADER_RESOURCE (64)
it held before the output loop: the state write at RenderGraph.cpp:783 is
unconditional. -/
theorem pingPong_masked_output_state_updated_counterexample :
    (pingPongFinal.map (fun q => q.2.map RenderNode.OutputMask)) = some [1] ∧
    (pingPongFinal.map (fun q => q.2.map RenderNode.Barriers)) =
      some [[⟨some 1, D3D12_RESOURCE_STATE_COMMON,
              D3D12_RESOURCE_STATE_NON_PIXEL_SHADER_RESOURCE⟩]] ∧
    (pingPongFinal.map (fun q => q.1.map ResourceMetadata.State)) =
      some [D3D12_RESOURCE_STATE_UNORDERED_ACCESS] ∧
    D3D12_RESOURCE_STATE_UNORDERED_ACCESS ≠
      D3D12_RESOURCE_STATE_NON_PIXEL_SHADER_RESOURCE := by
  refine ⟨by rfl, by rfl, by rfl, by decide⟩

/-- C2 (amended): for every non-dummy output processed by the barrier
loop, the resource's recorded state is set to the output's expected state
whether or not the mask bit is set and whether or not a barrier was
emitted; a transition barrier (and the unsupported-barrier update) is
pushed exactly when the mask bit is clear and the current state misses
the expected state — so masked (ping-pong) outputs contribute no barrier
but do update the recorded state. -/
theorem barrierOutputStep_amended (isAsync : Bool) (mask : Nat)
    (resources : List ResourceMetadata) (barriers : List TransitionBarrier)
    (hasUnsup : Bool) (i : Nat) (o : Dependency) (idx : Nat)
    (hnd : ¬o.ResID < DUMMY_RES_COUNT)
    (hfound : findFrameResource resources o.ResID 0 (-1) = some idx) :
    barrierOutputStep isAsync mask (resources, barriers, hasUnsup, i) o =
      some (setResourceState resources idx o.ExpectedState,
        (if (1 <<< i) &&& mask = 0 ∧
            (resources.getD idx default).State &&& o.ExpectedState = 0
         then barriers ++ [⟨(resources.getD idx default).Res,
                (resources.getD idx default).State, o.ExpectedState⟩]
         else barriers),
        (if (1 <<< i) &&& mask = 0 ∧
            (resources.getD idx default).State &&& o.ExpectedState = 0
         then hasUnsup ||
              (isAsync && (resources.getD idx default).State &&&
                INVALID_COMPUTE_STATES != 0)
         else hasUnsup),
        i + 1) := by
  simp only [barrierOutputStep, hnd, if_false, hfound]
  by_cases hmask : (1 <<< i) &&& mask = 0
  · simp only [hmask]
    simp
    constructor <;> split <;> simp
  · simp [hmask]

theorem barrierOutputStep_amended_witness :
    barrierOutputStep false 1
        ([⟨10, some 1, 64, false, []⟩], [], false, 0) ⟨10, 8⟩ =
      some ([⟨10, some 1, 8, false, []⟩], [], false, 1) := by
  have h := barrierOutputStep_amended false 1 [⟨10, some 1, 64, false, []⟩]
    [] false 0 ⟨10, 8⟩ 0 (by decide) (by decide)
  simpa using h

theorem addOutput_checks_resource_addInput_defers_witness :
    addOutput ⟨[⟨7, some 1, 4, false, []⟩], 1, [{}], true, false⟩ 0 9
        D3D12_RESOURCE_STATE_UNORDERED_ACCESS = .error "Invalid resource path" ∧
    addInput ⟨[⟨7, some 1, 4, false, []⟩], 1, [{}], true, false⟩ 0 9
        D3D12_RESOURCE_STATE_NON_PIXEL_SHADER_RESOURCE =
      .ok ⟨[⟨7, some 1, 4, false, []⟩], 1,
        [{ Inputs := [⟨9, D3D12_RESOURCE_STATE_NON_PIXEL_SHADER_RESOURCE⟩] }], true, false⟩ := by
  have h := addOutput_checks_resource_addInput_defers
    ⟨[⟨7, some 1, 4, false, []⟩], 1, [{}], true, false⟩ 0 9
    D3D12_RESOURCE_STATE_NON_PIXEL_SHADER_RESOURCE
    D3D12_RESOURCE_STATE_UNORDERED_ACCESS
    (by constructor <;> decide) (by decide) (by decide) (by decide)
    (by decide) (by decide)
  exact ⟨h.1, h.2⟩

end ZetaRG
